import Mathlib

/-!
Verification of the generated header
`tmp/DerivedData/.../DerivedSources/GeneratedAssetSymbols.h` of the
HighlanderHomes repository.  The file is a 12-line auto-generated
Objective-C header; we embed it shallowly: the raw lines as data, a small
C-preprocessor semantics (conditional blocks, object-like definitions,
removal), the resulting constant declaration, a runtime-store semantics for
the const invariant, a linkage model for the `static` storage class, and a
spec-modelled generator for the idempotence property.
-/

/-- A C/Objective-C constant declaration as it stands after preprocessing.
Line 10 of the header produces exactly one such declaration.  The string
value records the (never-null) Objective-C string literal. -/
structure CDecl where
  isStatic : Bool
  isConst : Bool
  typeName : String
  name : String
  attrs : List String
  value : String
deriving DecidableEq, Repr

/-- One physical line of the header before preprocessing.  The constructors
mirror exactly the kinds of line that occur in GeneratedAssetSymbols.h. -/
inductive PPLine where
  | importLine (path : String)
  | blank
  | hashIfHasAttribute (attrName : String)
  | hashDefine (mname : String) (body : List String)
  | hashElse
  | hashEndif
  | comment (text : String)
  | constDecl (isStatic isConst : Bool) (typeName declName attrTok value : String)
  | hashUndef (mname : String)
deriving DecidableEq, Repr

/-- Whether a raw line is a declaration (as opposed to a directive,
comment or blank line). -/
def PPLine.isDeclLine : PPLine → Bool
  | PPLine.constDecl _ _ _ _ _ _ => true
  | _ => false

/-- The twelve lines of GeneratedAssetSymbols.h, transliterated one by one
from the source file. -/
def rawGeneratedAssetSymbols : List PPLine :=
  [ PPLine.importLine "Foundation/Foundation.h",
    PPLine.blank,
    PPLine.hashIfHasAttribute "swift_private",
    PPLine.hashDefine "AC_SWIFT_PRIVATE" ["__attribute__((swift_private))"],
    PPLine.hashElse,
    PPLine.hashDefine "AC_SWIFT_PRIVATE" [],
    PPLine.hashEndif,
    PPLine.blank,
    PPLine.comment "The \"HighlanderLogo\" asset catalog image resource.",
    PPLine.constDecl true true "NSString *" "ACImageNameHighlanderLogo"
      "AC_SWIFT_PRIVATE" "HighlanderLogo",
    PPLine.blank,
    PPLine.hashUndef "AC_SWIFT_PRIVATE" ]

/-- Lookup in the table of defined object-like names. -/
def lookupMacro : List (String × List String) → String → Option (List String)
  | [], _ => none
  | (k, v) :: rest, n => if k = n then some v else lookupMacro rest n

/-- Remove a name from the table, as done by an undef directive. -/
def removeMacro : List (String × List String) → String → List (String × List String)
  | [], _ => []
  | (k, v) :: rest, n =>
      if k = n then removeMacro rest n else (k, v) :: removeMacro rest n

/-- Preprocessor semantics.  The argument hasAttr is the toolchain capability
oracle answering the has-attribute test of line 3; the table holds the
currently defined object-like names; the Bool stack records enclosing
conditional branches (a line is active when every enclosing branch is).  The
result is the final table together with the declarations emitted, with the
attribute token of a declaration expanded through the table (an undefined
token is left as written, as a C compiler would then see it). -/
def preprocess (hasAttr : String → Bool) :
    List PPLine → List (String × List String) → List Bool →
    List (String × List String) × List CDecl
  | [], tbl, _ => (tbl, [])
  | PPLine.importLine _ :: rest, tbl, stk => preprocess hasAttr rest tbl stk
  | PPLine.blank :: rest, tbl, stk => preprocess hasAttr rest tbl stk
  | PPLine.hashIfHasAttribute a :: rest, tbl, stk =>
      preprocess hasAttr rest tbl (hasAttr a :: stk)
  | PPLine.hashElse :: rest, tbl, [] => preprocess hasAttr rest tbl []
  | PPLine.hashElse :: rest, tbl, b :: t => preprocess hasAttr rest tbl ((!b) :: t)
  | PPLine.hashEndif :: rest, tbl, [] => preprocess hasAttr rest tbl []
  | PPLine.hashEndif :: rest, tbl, _ :: t => preprocess hasAttr rest tbl t
  | PPLine.hashDefine n body :: rest, tbl, stk =>
      if stk.all (fun a => a) then
        preprocess hasAttr rest ((n, body) :: removeMacro tbl n) stk
      else preprocess hasAttr rest tbl stk
  | PPLine.hashUndef n :: rest, tbl, stk =>
      if stk.all (fun a => a) then
        preprocess hasAttr rest (removeMacro tbl n) stk
      else preprocess hasAttr rest tbl stk
  | PPLine.comment _ :: rest, tbl, stk => preprocess hasAttr rest tbl stk
  | PPLine.constDecl st co ty n am v :: rest, tbl, stk =>
      if stk.all (fun a => a) then
        let r := preprocess hasAttr rest tbl stk
        (r.1, CDecl.mk st co ty n ((lookupMacro tbl am).getD [am]) v :: r.2)
      else preprocess hasAttr rest tbl stk

/-- The capability oracle of a compilation: it answers the has-attribute
test positively for swift_private exactly when the toolchain supports that
attribute (the Bool parameter), and negatively for everything else. -/
def swiftPrivateOracle (hasSwiftPrivate : Bool) : String → Bool :=
  fun a => if a = "swift_private" then hasSwiftPrivate else false

/-- The header after preprocessing, for a compilation whose toolchain
support for swift_private is the given Bool. -/
def processedHeader (hasSwiftPrivate : Bool) :
    List (String × List String) × List CDecl :=
  preprocess (swiftPrivateOracle hasSwiftPrivate) rawGeneratedAssetSymbols [] []

/-- The declarations the header contributes to a translation unit. -/
def headerDecls (b : Bool) : List CDecl := (processedHeader b).2

/-- The table of names still defined after the last line of the header. -/
def finalMacros (b : Bool) : List (String × List String) := (processedHeader b).1

/-- The string value of the source constant ACImageNameHighlanderLogo
(line 10 of the header). -/
def ACImageNameHighlanderLogo : String := "HighlanderLogo"

/-- The catalog resource name the header was generated from, as recorded in
the doc comment on line 9 of the header. -/
def catalogResourceName : String := "HighlanderLogo"

/-- Lines 3 to 7 of the header: the conditional block defining
AC_SWIFT_PRIVATE. -/
def acSwiftPrivateGuard : List PPLine :=
  [ PPLine.hashIfHasAttribute "swift_private",
    PPLine.hashDefine "AC_SWIFT_PRIVATE" ["__attribute__((swift_private))"],
    PPLine.hashElse,
    PPLine.hashDefine "AC_SWIFT_PRIVATE" [],
    PPLine.hashEndif ]

/-- The expansion AC_SWIFT_PRIVATE has right after the conditional block,
for a compilation with the given toolchain capability. -/
def acSwiftPrivateExpansion (b : Bool) : Option (List String) :=
  lookupMacro (preprocess (swiftPrivateOracle b) acSwiftPrivateGuard [] []).1
    "AC_SWIFT_PRIVATE"

/-- The expected single declaration of the header, for comparison with the
preprocessed output. -/
def highlanderLogoDecl (b : Bool) : CDecl :=
  CDecl.mk true true "NSString *" "ACImageNameHighlanderLogo"
    (if b then ["__attribute__((swift_private))"] else []) "HighlanderLogo"

/-- A runtime store: each variable name is either unbound or holds a string
value. -/
abbrev Store := String → Option String

/-- The store at program start: every declared constant is bound to its
initializer, everything else is unbound. -/
def initStore (ds : List CDecl) : Store :=
  fun x => (ds.find? (fun d => d.name == x)).map CDecl.value

/-- The names the header declares const: no runtime operation may assign to
them. -/
def constNames (ds : List CDecl) : List String :=
  (ds.filter (fun d => d.isConst)).map CDecl.name

/-- One runtime step: an assignment to a variable that is not const.  Const
names admit no assignment, which is exactly what the C type system enforces
for a declaration carrying the const qualifier. -/
inductive RunStep (consts : List String) : Store → Store → Prop where
  | assign (s : Store) (x v : String) (hx : x ∉ consts) :
      RunStep consts s (fun y => if y = x then some v else s y)

/-- Any finite number of runtime steps. -/
inductive Reaches (consts : List String) : Store → Store → Prop where
  | refl (s : Store) : Reaches consts s s
  | step {s t u : Store} :
      Reaches consts s t → RunStep consts t u → Reaches consts s u

/-- Linkage of a symbol in a translation unit. -/
inductive Linkage where
  | internalLinkage
  | externalLinkage
deriving DecidableEq, Repr

/-- Storage class static gives a declaration internal linkage; otherwise a
file-scope constant has external linkage. -/
def CDecl.linkage (d : CDecl) : Linkage :=
  if d.isStatic then Linkage.internalLinkage else Linkage.externalLinkage

/-- The symbols a translation unit exports to the linker: exactly its
declarations of external linkage. -/
def exportedSymbols (tu : List CDecl) : List String :=
  (tu.filter (fun d => d.linkage == Linkage.externalLinkage)).map CDecl.name

/-- The exact text of GeneratedAssetSymbols.h as found in the repository
(332 bytes, no trailing newline). -/
def headerFileText : String :=
  "#import <Foundation/Foundation.h>\n\n#if __has_attribute(swift_private)\n#define AC_SWIFT_PRIVATE __attribute__((swift_private))\n#else\n#define AC_SWIFT_PRIVATE\n#endif\n\n/// The \"HighlanderLogo\" asset catalog image resource.\nstatic NSString * const ACImageNameHighlanderLogo AC_SWIFT_PRIVATE = @\"HighlanderLogo\";\n\n#undef AC_SWIFT_PRIVATE"

/-- Modelled from the spec: the per-image block the generation step emits
for one catalog image name (a doc comment line followed by the constant
declaration line).  The generation tool itself is not part of the
repository; only its output header is, so the tool is modelled from the
spec sentence that the constant name is derived mechanically from the
resource name and the value is the catalog key string. -/
def assetImageBlock (n : String) : String :=
  "/// The \"" ++ n ++ "\" asset catalog image resource.\n" ++
  "static NSString * const ACImageName" ++ n ++ " AC_SWIFT_PRIVATE = @\"" ++ n ++ "\";"

/-- Modelled from the spec: the build tool generation step, a pure
function of the asset-catalog input (the list of image resource names). -/
def generateAssetSymbols (catalog : List String) : String :=
  "#import <Foundation/Foundation.h>\n\n" ++
  "#if __has_attribute(swift_private)\n" ++
  "#define AC_SWIFT_PRIVATE __attribute__((swift_private))\n" ++
  "#else\n" ++
  "#define AC_SWIFT_PRIVATE\n" ++
  "#endif\n\n" ++
  String.intercalate "\n\n" (catalog.map assetImageBlock) ++
  "\n\n#undef AC_SWIFT_PRIVATE"

/-- Modelled from the spec: regeneration overwrites whatever file is on
disk with the output generated from the catalog; the previous file content
does not influence the output. -/
def regenerate (catalog : List String) (_oldFile : String) : String :=
  generateAssetSymbols catalog

/-- Claim C1: the exported constant ACImageNameHighlanderLogo has the value
"HighlanderLogo" in every compilation: the single declaration the header
produces carries exactly that string value, the literal catalog resource
name. -/
theorem C1_constant_value (b : Bool) :
    (headerDecls b).map CDecl.value = [ACImageNameHighlanderLogo] ∧
    ACImageNameHighlanderLogo = "HighlanderLogo" := by
  cases b <;> exact ⟨rfl, rfl⟩

/-- Claim C1 witness at a concrete compilation. -/
theorem C1_constant_value_witness :
    (headerDecls true).map CDecl.value = [ACImageNameHighlanderLogo] ∧
    ACImageNameHighlanderLogo = "HighlanderLogo" :=
  C1_constant_value true

/-- Claim C2: AC_SWIFT_PRIVATE is a two-outcome compile-time switch.  The
conditional block (lines 3 to 7, which the first conjunct checks is the
literal sublist of the header) leaves the name expanding to the restricted
visibility attribute exactly when the toolchain reports support for
swift_private, and to nothing otherwise; since the oracle answer is a Bool,
no third outcome exists. -/
theorem C2_two_outcome_switch (b : Bool) :
    acSwiftPrivateGuard = (rawGeneratedAssetSymbols.drop 2).take 5 ∧
    acSwiftPrivateExpansion b =
      some (if b then ["__attribute__((swift_private))"] else []) := by
  cases b <;> exact ⟨by decide, rfl⟩

/-- Claim C3: the header exposes exactly one entity: preprocessing yields
exactly the single constant declaration, and among the raw lines exactly
one is a declaration line (the rest are the import, the conditional block,
comments, blank lines and the undef directive). -/
theorem C3_single_entity (b : Bool) :
    headerDecls b = [highlanderLogoDecl b] ∧
    (rawGeneratedAssetSymbols.filter PPLine.isDeclLine).length = 1 := by
  cases b <;> exact ⟨by decide, by decide⟩

/-- Claim C4: the constant is never mutated at runtime.  In every execution
(any finite sequence of assignments, none of which may target a const name,
as the const qualifier on line 10 guarantees), every reachable store still
binds ACImageNameHighlanderLogo to its initial value "HighlanderLogo". -/
theorem C4_const_never_mutated (b : Bool) (s : Store)
    (h : Reaches (constNames (headerDecls b)) (initStore (headerDecls b)) s) :
    s "ACImageNameHighlanderLogo" = some "HighlanderLogo" := by
  induction h with
  | refl => cases b <;> rfl
  | step _ hstep ih =>
      cases hstep with
      | assign x v hx =>
          have hne : ("ACImageNameHighlanderLogo" : String) ≠ x := by
            intro he
            apply hx
            rw [← he]
            cases b <;> decide
          simpa [hne] using ih

/-- Claim C4 witness: the initial store of a concrete compilation is
reachable in zero steps and binds the constant to "HighlanderLogo". -/
theorem C4_const_never_mutated_witness :
    initStore (headerDecls true) "ACImageNameHighlanderLogo" =
      some "HighlanderLogo" :=
  C4_const_never_mutated true (initStore (headerDecls true))
    (Reaches.refl (initStore (headerDecls true)))

/-- Claim C5: the identifier is derived mechanically from the catalog name:
the single declaration has name "ACImageName" concatenated with the catalog
resource name, and its value is that same catalog key string. -/
theorem C5_name_mechanically_derived (b : Bool) :
    (headerDecls b).map (fun d => (d.name, d.value)) =
      [("ACImageName" ++ catalogResourceName, catalogResourceName)] := by
  cases b <;> decide

set_option maxRecDepth 8192 in
/-- Claim C6: regeneration is idempotent.  The generation step is a pure
function of the catalog, so regenerating over its own output changes
nothing, any two regenerations from the unchanged catalog agree byte for
byte, and regenerating from the one-image catalog over the repository file
reproduces that file exactly. -/
theorem C6_regeneration_idempotent :
    (∀ (c : List String) (old : String),
        regenerate c (regenerate c old) = regenerate c old) ∧
    (∀ (old1 old2 : String),
        regenerate ["HighlanderLogo"] old1 = regenerate ["HighlanderLogo"] old2) ∧
    regenerate ["HighlanderLogo"] headerFileText = headerFileText := by
  refine ⟨fun c old => rfl, fun old1 old2 => rfl, ?_⟩
  decide

/-- Claim C7: no effect beyond the guarded name export.  After the last
line of the header the table of defined names is empty (so in particular
AC_SWIFT_PRIVATE was removed by the undef directive before the end of the
file), and the only thing declared is the single constant. -/
theorem C7_no_effect_beyond_export (b : Bool) :
    finalMacros b = [] ∧
    lookupMacro (finalMacros b) "AC_SWIFT_PRIVATE" = none ∧
    (headerDecls b).map CDecl.name = ["ACImageNameHighlanderLogo"] := by
  cases b <;> exact ⟨rfl, rfl, rfl⟩

/-- Claim C8: the exported value is a non-null, non-empty string: the
declaration binds the (never-null) literal whose length is 14, hence
positive, so consumers need no null or emptiness check. -/
theorem C8_value_nonempty (b : Bool) :
    (headerDecls b).map (fun d => d.value.length) = [14] ∧
    (headerDecls b).all (fun d => d.value != "" && decide (0 < d.value.length)) = true := by
  cases b <;> decide

/-- Claim C9: noninterference of the capability switch on the value.  For
any two compilations, whatever each answers to the has-attribute test, the
value of the constant is the same string "HighlanderLogo"; the branch
affects only the attribute list, never the observed value. -/
theorem C9_value_noninterference (b1 b2 : Bool) :
    (headerDecls b1).map CDecl.value = (headerDecls b2).map CDecl.value ∧
    (headerDecls b1).map CDecl.value = ["HighlanderLogo"] := by
  cases b1 <;> cases b2 <;> exact ⟨rfl, rfl⟩

/-- Claim C10: the constant is static, hence of internal linkage, so a
translation unit that includes the header exports no symbol for it: the
exported symbols of any unit formed by the header declarations plus
arbitrary other declarations are exactly those of the other declarations,
so no number of including units can produce a duplicate symbol for
ACImageNameHighlanderLogo at link time. -/
theorem C10_internal_linkage (b : Bool) (others : List CDecl) :
    (headerDecls b).map CDecl.linkage = [Linkage.internalLinkage] ∧
    exportedSymbols (headerDecls b ++ others) = exportedSymbols others := by
  cases b <;> exact ⟨rfl, rfl⟩
